import Mathlib

/-!
Verification of the `quotes_scraper.py` crawler (class `QuotesScraper`).

The program drives a (headless) browser over a paginated quote-listing
site, extracts `{quote, author, tags}` dictionaries from every page,
follows the literal "Next →" link until it is absent, and finally writes
the accumulated list to `quotes.json` with
`json.dump(result, f, indent=4, ensure_ascii=False)`.

The browser engine (selenium) and the HTML parser (BeautifulSoup) are
external collaborators; they are embedded at the interface the program
uses:

* a visited page is a `Page`: its canonical URL, its raw markup, the
  list of quote containers (`div class="quote"`) in document order as
  returned by `soup.find_all`, and the visible texts of its link
  elements (for `find_element(By.LINK_TEXT, "Next →")`);
* a quote container is a `QuoteDiv`: the text of its first nested
  `span` (if any), of its first nested `small` (if any), and the texts
  of its `a class="tag"` anchors in document order.  In Python,
  `quote_div.span` is `None` when no `span` exists, and `.text` on it
  raises `AttributeError`.

The file system is a write log: each `fsWrite` prepends a
`(path, contents)` entry and `fsRead` returns the most recent entry for
a path, so both overwriting and the number of writes are observable.

The crawl is driven by the chain of pages the browser would visit:
`scrape_loop` consumes that chain, stopping (successfully) at the first
page without a "Next →" link, exactly as the `while True` loop of
`QuotesScraper.scrape` does.
-/

/-- A Python value as stored in the result list: the `quote` and
`author` entries are strings, the `tags` entry is a list of strings. -/
inductive PyVal where
  | vstr : String → PyVal
  | vlist : List String → PyVal
deriving DecidableEq, Repr

/-- A Python dict with string keys, modelled as its insertion-ordered
key/value pairs (Python dicts preserve insertion order, and `json.dump`
serializes keys in that order). -/
abbrev Dict := List (String × PyVal)

/-- Exceptions the embedded run can raise: `attributeError s` models the
`AttributeError` raised by `.text` on a missing sub-element `s`;
`navigationError` models a browser-level navigation failure. -/
inductive ScrapeError where
  | attributeError : String → ScrapeError
  | navigationError : ScrapeError
deriving DecidableEq, Repr

/-- A quote container (`div class="quote"`) as the program reads it:
text of the first nested `span` and first nested `small` (absent when
the element is missing), and the `a class="tag"` texts in document
order. -/
structure QuoteDiv where
  span : Option String
  small : Option String
  tagAnchors : List String
deriving DecidableEq, Repr

/-- One visited page: canonical URL, raw markup, quote containers in
document order, and visible texts of its links. -/
structure Page where
  url : String
  contents : String
  quoteDivs : List QuoteDiv
  linkTexts : List String
deriving DecidableEq, Repr

/-- The file system as a write log: most recent write first. -/
abbrev FS := List (String × String)

/-- Writing a file records the write; the newest entry shadows older
ones, so an existing file at the same path is silently overwritten. -/
def fsWrite (fs : FS) (path contents : String) : FS :=
  (path, contents) :: fs

/-- Reading returns the contents of the most recent write to `path`. -/
def fsRead : FS → String → Option String
  | [], _ => none
  | (q, c) :: rest, p => if q == p then some c else fsRead rest p

/-- Number of writes ever made to `path`. -/
def countPath (fs : FS) (p : String) : Nat :=
  (fs.filter (fun kv => kv.1 == p)).length

/-! ### `save_page`: dump-file naming

`page_name = "_".join(curr_url.split("/")[-2:])`, and the dump file is
`data_dumps/<page_name>.html` (under the working directory). -/

/-- Python's `s.split("/")` on the character list of `s`. -/
def splitSlash : List Char → List (List Char)
  | [] => [[]]
  | c :: rest =>
    if c = '/' then [] :: splitSlash rest
    else
      match splitSlash rest with
      | [] => [[c]]
      | s :: ss => (c :: s) :: ss

/-- Python's `sep.join(parts)` for a single-character separator. -/
def joinChar (sep : Char) : List (List Char) → List Char
  | [] => []
  | [p] => p
  | p :: ps => p ++ sep :: joinChar sep ps

/-- `"_".join(curr_url.split("/")[-2:])` from `QuotesScraper.save_page`:
the last two `/`-separated components of the URL string (Python's
`[-2:]` is `drop (length - 2)`, and yields the whole list when it has
fewer than two elements), joined by an underscore. -/
def page_name (curr_url : String) : String :=
  ⟨joinChar '_' ((splitSlash curr_url.data).drop ((splitSlash curr_url.data).length - 2))⟩

/-- The dump file's name: `page_name + ".html"`. -/
def dump_file_name (curr_url : String) : String :=
  page_name curr_url ++ ".html"

/-- Path of the dump file, relative to the working directory:
`os.path.join(data_dumps_dir, page_name + ".html")`. -/
def dump_path (curr_url : String) : String :=
  "data_dumps/" ++ dump_file_name curr_url

/-- Name of the result file (`self.res_file = "quotes.json"`). -/
def res_file : String := "quotes.json"

/-! ### `parse_quote_div`: per-quote extraction -/

/-- `QuotesScraper.parse_quote_div`: reads `quote_div.span.text` (an
`AttributeError` when the `span` is missing), then
`quote_div.small.text` (likewise), then the `a class="tag"` texts, and
builds the dict `{"quote": ..., "author": ..., "tags": ...}` in that
insertion order. -/
def parse_quote_div (d : QuoteDiv) : Except ScrapeError Dict :=
  match d.span with
  | none => .error (.attributeError "span")
  | some quote =>
    match d.small with
    | none => .error (.attributeError "small")
    | some author =>
      .ok [("quote", .vstr quote), ("author", .vstr author), ("tags", .vlist d.tagAnchors)]

/-- The dict `parse_quote_div` produces on a well-formed container. -/
def extract_record (d : QuoteDiv) : Dict :=
  [("quote", .vstr (d.span.getD "")), ("author", .vstr (d.small.getD "")),
   ("tags", .vlist d.tagAnchors)]

/-- The `for quote_div in quote_divs` loop of
`QuotesScraper.parse_quotes_page`: parse each container and append the
dict to the accumulated result; an extraction error aborts the loop. -/
def parse_divs : List QuoteDiv → List Dict → Except ScrapeError (List Dict)
  | [], result => .ok result
  | d :: rest, result =>
    match parse_quote_div d with
    | .ok det => parse_divs rest (result ++ [det])
    | .error e => .error e

/-- `QuotesScraper.parse_quotes_page` on one page: when `is_dump` is
set, first `save_page` writes the raw markup to the dump path, then the
quote containers are parsed and appended in document order. -/
def parse_quotes_page (isDump : Bool) (p : Page) (result : List Dict) (fs : FS) :
    Except ScrapeError (List Dict) × FS :=
  let fs' := if isDump then fsWrite fs (dump_path p.url) p.contents else fs
  (parse_divs p.quoteDivs result, fs')

/-! ### `json.dump(result, f, indent=4, ensure_ascii=False)` -/

/-- `indent=4` indentation prefix: `n` spaces. -/
def ind (n : Nat) : String :=
  ⟨List.replicate n ' '⟩

/-- One hex digit, lowercase, as Python's `'\u%04x'` prints it. -/
def hexDigit (n : Nat) : Char :=
  if n < 10 then Char.ofNat ('0'.toNat + n) else Char.ofNat ('a'.toNat + (n - 10))

/-- Four lowercase hex digits of `n`. -/
def hex4 (n : Nat) : List Char :=
  [hexDigit (n / 4096 % 16), hexDigit (n / 256 % 16), hexDigit (n / 16 % 16),
   hexDigit (n % 16)]

/-- Python's `ensure_ascii=False` string escaping
(`json.encoder.py_encode_basestring`): only `"` and backslash and
control characters below `0x20` are escaped; every other character —
non-ASCII included — is kept literally. -/
def pyEscapeChar (c : Char) : List Char :=
  if c = '"' then ['\\', '"']
  else if c = '\\' then ['\\', '\\']
  else if c = '\n' then ['\\', 'n']
  else if c = '\r' then ['\\', 'r']
  else if c = '\t' then ['\\', 't']
  else if c = '\x08' then ['\\', 'b']
  else if c = '\x0c' then ['\\', 'f']
  else if c.toNat < 0x20 then '\\' :: 'u' :: hex4 c.toNat
  else [c]

/-- A JSON string literal: quoted, with each character escaped by
`pyEscapeChar`. -/
def pyStr (s : String) : String :=
  ⟨'"' :: ((s.data.map pyEscapeChar).flatten ++ ['"'])⟩

/-- Serialize the lines of a nonempty string list inside a JSON array
at nesting depth `depth` (each line indented by `4 * depth`). -/
def dumpStrList (depth : Nat) : List String → String
  | [] => ""
  | [t] => ind (4 * depth) ++ pyStr t
  | t :: ts => ind (4 * depth) ++ pyStr t ++ ",\n" ++ dumpStrList depth ts

/-- Serialize one value at nesting depth `depth`; an empty list prints
as `[]` with no newline, as Python's `json.dump` does. -/
def dumpPyVal (depth : Nat) : PyVal → String
  | .vstr s => pyStr s
  | .vlist [] => "[]"
  | .vlist (t :: ts) =>
      "[\n" ++ dumpStrList (depth + 1) (t :: ts) ++ "\n" ++ ind (4 * depth) ++ "]"

/-- Serialize the `"key": value` lines of a dict at nesting depth
`depth`, in insertion order, separated by `",\n"`. -/
def dumpItems (depth : Nat) : Dict → String
  | [] => ""
  | [(k, v)] => ind (4 * depth) ++ pyStr k ++ ": " ++ dumpPyVal depth v
  | (k, v) :: kvs =>
      ind (4 * depth) ++ pyStr k ++ ": " ++ dumpPyVal depth v ++ ",\n" ++ dumpItems depth kvs

/-- Serialize one dict at nesting depth `depth`. -/
def dumpObj (depth : Nat) (items : Dict) : String :=
  match items with
  | [] => "\x7b\x7d"
  | _ => "\x7b\n" ++ dumpItems (depth + 1) items ++ "\n" ++ ind (4 * depth) ++ "\x7d"

/-- Serialize the objects of the top-level array, one per line. -/
def dumpObjList (depth : Nat) : List Dict → String
  | [] => ""
  | [r] => ind (4 * depth) ++ dumpObj depth r
  | r :: rs => ind (4 * depth) ++ dumpObj depth r ++ ",\n" ++ dumpObjList depth rs

/-- `json.dumps(result, indent=4, ensure_ascii=False)` for the result
list: an empty list prints as `[]`, otherwise one indented object per
record, in list order. -/
def dumpResult (result : List Dict) : String :=
  match result with
  | [] => "[]"
  | _ => "[\n" ++ dumpObjList 1 result ++ "\n]"

/-- The final `open(self.res_file, "w") ... json.dump(...)` of
`QuotesScraper.scrape`: one write of the serialized result to
`quotes.json`, overwriting whatever was there. -/
def flush (fs : FS) (result : List Dict) : FS :=
  fsWrite fs res_file (dumpResult result)

/-! ### The crawl loop -/

/-- The literal link text `QuotesScraper.scrape` looks for. -/
def next_link_text : String := "Next →"

/-- `driver.find_element(By.LINK_TEXT, "Next →")` succeeds exactly when
some link on the page has that literal visible text. -/
def has_next (p : Page) : Bool :=
  p.linkTexts.contains next_link_text

/-- The `while True` loop of `QuotesScraper.scrape`, run against the
chain of pages the browser would visit: parse the current page (dumping
it first when `is_dump`), then look for the "Next →" link — absent:
break out successfully; present: click and continue on the next page of
the chain (an exhausted chain at that point is a navigation failure).
The `Nat` component counts the pages visited. -/
def scrape_loop (isDump : Bool) :
    List Page → List Dict → FS → Nat → Except ScrapeError (List Dict) × FS × Nat
  | [], _, fs, visited => (.error .navigationError, fs, visited)
  | p :: rest, result, fs, visited =>
    match parse_quotes_page isDump p result fs with
    | (.ok result', fs') =>
      if has_next p then scrape_loop isDump rest result' fs' (visited + 1)
      else (.ok result', fs', visited + 1)
    | (.error e, fs') => (.error e, fs', visited + 1)

/-- `QuotesScraper.scrape`: run the loop from an empty result list;
when it finishes normally, `flush` the result to `quotes.json`.  An
error propagates before the result file is touched. -/
def scrape (isDump : Bool) (pages : List Page) (fs : FS) :
    Except ScrapeError (List Dict) × FS × Nat :=
  match (scrape_loop isDump pages [] fs 0).1 with
  | .ok result =>
    (.ok result, flush (scrape_loop isDump pages [] fs 0).2.1 result,
      (scrape_loop isDump pages [] fs 0).2.2)
  | .error e =>
    (.error e, (scrape_loop isDump pages [] fs 0).2.1, (scrape_loop isDump pages [] fs 0).2.2)

/-- The `__main__` block: `QuotesScraper(is_dump=True)`, `scrape()`,
then `quit()`.  There is no `try`/`finally`, so `quit` runs only when
`scrape` returns normally; an exception propagates past the `quit()`
call.  The value is the number of times the driver is quit. -/
def main_quit_count (pages : List Page) (fs : FS) : Nat :=
  match (scrape true pages fs).1 with
  | .ok _ => 1
  | .error _ => 0

/-! ### Well-formedness of inputs -/

/-- A container both of whose `span` and `small` sub-elements exist. -/
def wf_div (d : QuoteDiv) : Bool :=
  d.span.isSome && d.small.isSome

/-- A page all of whose containers are well-formed. -/
def wf_page (p : Page) : Bool :=
  p.quoteDivs.all wf_div

/-- A finite chain of pages as the crawl sees it: every page but the
last carries the "Next →" link, the last does not. -/
def chain_ok : List Page → Bool
  | [] => false
  | [p] => !has_next p
  | p :: q :: rest => has_next p && chain_ok (q :: rest)

/-! ### Sample inputs -/

/-- A well-formed quote container. -/
def sample_div : QuoteDiv :=
  { span := some "A", small := some "Author1", tagAnchors := ["x"] }

/-- A malformed quote container: its `span` sub-element is missing. -/
def bad_div : QuoteDiv :=
  { span := none, small := some "Author1", tagAnchors := [] }

/-- A first page carrying the "Next →" link. -/
def first_page : Page :=
  { url := "http://quotes.toscrape.com/js/", contents := "<html>1</html>",
    quoteDivs := [sample_div], linkTexts := ["Next →"] }

/-- A last page: no "Next →" link. -/
def end_page : Page :=
  { url := "http://quotes.toscrape.com/js/page/2/", contents := "<html>2</html>",
    quoteDivs := [sample_div], linkTexts := [] }

/-- A terminal page whose only container is malformed. -/
def bad_page : Page :=
  { url := "http://quotes.toscrape.com/js/", contents := "<html>b</html>",
    quoteDivs := [bad_div], linkTexts := [] }

/-- A terminal page with no quote containers at all. -/
def empty_page : Page :=
  { url := "http://quotes.toscrape.com/js/", contents := "<html>e</html>",
    quoteDivs := [], linkTexts := [] }

/-! ### Helper lemmas -/

/-- `String.append` concatenates the underlying character lists. -/
lemma string_append_data (a b : String) : (a ++ b).data = a.data ++ b.data := rfl

/-- The records of the whole crawl, in page-visit order and, within a
page, in document order of the containers. -/
def all_records : List Page → List Dict
  | [] => []
  | p :: ps => p.quoteDivs.map extract_record ++ all_records ps

/-- A dump file's path never collides with the result file. -/
lemma dump_path_ne (u : String) : dump_path u ≠ res_file := by
  intro h
  have h1 : (dump_path u).data.head? = some 'd' := rfl
  rw [h] at h1
  exact absurd h1 (by decide)

lemma fsRead_write_self (fs : FS) (p c : String) : fsRead (fsWrite fs p c) p = some c := by
  simp [fsRead, fsWrite]

lemma fsRead_write_ne (fs : FS) (p c q : String) (h : p ≠ q) :
    fsRead (fsWrite fs p c) q = fsRead fs q := by
  simp [fsRead, fsWrite, h]

lemma countPath_write_self (fs : FS) (p c : String) :
    countPath (fsWrite fs p c) p = countPath fs p + 1 := by
  simp [countPath, fsWrite]

lemma countPath_write_ne (fs : FS) (p c q : String) (h : p ≠ q) :
    countPath (fsWrite fs p c) q = countPath fs q := by
  simp [countPath, fsWrite, h]

/-- On a well-formed container, extraction succeeds and yields the
record with the verbatim texts. -/
lemma parse_quote_div_wf (d : QuoteDiv) (h : wf_div d = true) :
    parse_quote_div d = .ok (extract_record d) := by
  cases hs : d.span with
  | none => simp [wf_div, hs] at h
  | some q =>
    cases ht : d.small with
    | none => simp [wf_div, ht] at h
    | some a => simp [parse_quote_div, extract_record, hs, ht]

/-- The extraction loop over well-formed containers appends one record
per container, in order. -/
lemma parse_divs_wf : ∀ (divs : List QuoteDiv) (acc : List Dict),
    divs.all wf_div = true →
    parse_divs divs acc = .ok (acc ++ divs.map extract_record)
  | [], acc, _ => by simp [parse_divs]
  | d :: rest, acc, h => by
    rw [List.all_cons, Bool.and_eq_true] at h
    rw [parse_divs, parse_quote_div_wf d h.1]
    show parse_divs rest (acc ++ [extract_record d]) = _
    rw [parse_divs_wf rest (acc ++ [extract_record d]) h.2]
    simp

/-- A successful crawl over a well-formed chain: the loop returns the
accumulated records followed by one record per container, in page-visit
and document order, and counts exactly the chain's pages. -/
lemma scrape_loop_ok (isDump : Bool) : ∀ (pages : List Page) (acc : List Dict) (fs : FS) (n : Nat),
    chain_ok pages = true → (∀ p ∈ pages, wf_page p = true) →
    (scrape_loop isDump pages acc fs n).1 = .ok (acc ++ all_records pages)
    ∧ (scrape_loop isDump pages acc fs n).2.2 = n + pages.length
  | [], _, _, _, hc, _ => by simp [chain_ok] at hc
  | [p], acc, fs, n, hc, hw => by
    have hn : has_next p = false := by
      simp only [chain_ok, Bool.not_eq_true'] at hc
      exact hc
    have hwp : p.quoteDivs.all wf_div = true := hw p (List.mem_singleton_self p)
    constructor <;>
      simp [scrape_loop, parse_quotes_page, parse_divs_wf p.quoteDivs acc hwp, hn, all_records]
  | p :: q :: rest, acc, fs, n, hc, hw => by
    rw [chain_ok, Bool.and_eq_true] at hc
    have hwp : p.quoteDivs.all wf_div = true := hw p (by simp)
    have hw' : ∀ r ∈ q :: rest, wf_page r = true := fun r hr => hw r (by simp [hr])
    have step : scrape_loop isDump (p :: q :: rest) acc fs n =
        scrape_loop isDump (q :: rest) (acc ++ p.quoteDivs.map extract_record)
          (if isDump then fsWrite fs (dump_path p.url) p.contents else fs) (n + 1) := by
      simp only [scrape_loop, parse_quotes_page, parse_divs_wf p.quoteDivs acc hwp, hc.1,
        if_true]
    rw [step]
    have ih := scrape_loop_ok isDump (q :: rest) (acc ++ p.quoteDivs.map extract_record)
      (if isDump then fsWrite fs (dump_path p.url) p.contents else fs) (n + 1) hc.2 hw'
    refine ⟨?_, ?_⟩
    · rw [ih.1]
      simp [all_records, List.append_assoc]
    · rw [ih.2]
      simp [List.length_cons]
      omega

/-- The loop only ever writes dump files, never the result file: the
result file's contents and write count are untouched, on success and on
error alike. -/
lemma scrape_loop_fs (isDump : Bool) : ∀ (pages : List Page) (acc : List Dict) (fs : FS) (n : Nat),
    fsRead (scrape_loop isDump pages acc fs n).2.1 res_file = fsRead fs res_file
    ∧ countPath (scrape_loop isDump pages acc fs n).2.1 res_file = countPath fs res_file
  | [], _, fs, _ => by simp [scrape_loop]
  | p :: rest, acc, fs, n => by
    have hfs : ∀ fs0 : FS,
        fsRead (if isDump then fsWrite fs0 (dump_path p.url) p.contents else fs0) res_file
          = fsRead fs0 res_file
        ∧ countPath (if isDump then fsWrite fs0 (dump_path p.url) p.contents else fs0) res_file
          = countPath fs0 res_file := by
      intro fs0
      cases isDump
      · simp
      · exact ⟨fsRead_write_ne fs0 _ p.contents res_file (dump_path_ne p.url),
          countPath_write_ne fs0 _ p.contents res_file (dump_path_ne p.url)⟩
    cases hpd : parse_divs p.quoteDivs acc with
    | error e =>
      have step : scrape_loop isDump (p :: rest) acc fs n =
          (.error e, if isDump then fsWrite fs (dump_path p.url) p.contents else fs, n + 1) := by
        simp only [scrape_loop, parse_quotes_page, hpd]
      rw [step]
      exact hfs fs
    | ok result' =>
      cases hn : has_next p with
      | true =>
        have step : scrape_loop isDump (p :: rest) acc fs n =
            scrape_loop isDump rest result'
              (if isDump then fsWrite fs (dump_path p.url) p.contents else fs) (n + 1) := by
          simp only [scrape_loop, parse_quotes_page, hpd, hn, if_true]
        rw [step]
        have ih := scrape_loop_fs isDump rest result'
          (if isDump then fsWrite fs (dump_path p.url) p.contents else fs) (n + 1)
        exact ⟨ih.1.trans (hfs fs).1, ih.2.trans (hfs fs).2⟩
      | false =>
        have step : scrape_loop isDump (p :: rest) acc fs n =
            (.ok result', if isDump then fsWrite fs (dump_path p.url) p.contents else fs,
              n + 1) := by
          simp [scrape_loop, parse_quotes_page, hpd, hn]
        rw [step]
        exact hfs fs

/-- A successful crawl: `scrape` returns the full record list, flushes
it to the result file, and counts the chain's pages. -/
lemma scrape_ok (isDump : Bool) (pages : List Page) (fs : FS)
    (hc : chain_ok pages = true) (hw : ∀ p ∈ pages, wf_page p = true) :
    scrape isDump pages fs =
      (.ok (all_records pages),
       fsWrite (scrape_loop isDump pages [] fs 0).2.1 res_file (dumpResult (all_records pages)),
       pages.length) := by
  have h := scrape_loop_ok isDump pages [] fs 0 hc hw
  rw [List.nil_append] at h
  rw [scrape, h.1]
  simp [flush, h.2]

/-- A failed crawl: the error propagates and the result file is not
flushed. -/
lemma scrape_error (isDump : Bool) (pages : List Page) (fs : FS) (e : ScrapeError)
    (h : (scrape_loop isDump pages [] fs 0).1 = .error e) :
    scrape isDump pages fs =
      (.error e, (scrape_loop isDump pages [] fs 0).2.1,
       (scrape_loop isDump pages [] fs 0).2.2) := by
  rw [scrape, h]

/-! ### Splitting and joining lemmas (for the dump-file name) -/

/-- `splitSlash` never returns the empty list. -/
lemma splitSlash_ne_nil : ∀ (l : List Char), splitSlash l ≠ []
  | [] => by simp [splitSlash]
  | c :: rest => by
    by_cases hc : c = '/'
    · simp [splitSlash, hc]
    · have := splitSlash_ne_nil rest
      cases h : splitSlash rest with
      | nil => exact absurd h this
      | cons s ss => simp [splitSlash, hc, h]

/-- Splitting a slash-free string yields that single component. -/
lemma splitSlash_no_slash : ∀ (a : List Char), '/' ∉ a → splitSlash a = [a]
  | [], _ => rfl
  | c :: rest, h => by
    have hc : ¬(c = '/') := fun e => h (e ▸ List.mem_cons_self c rest)
    have ih := splitSlash_no_slash rest (fun m => h (List.mem_cons_of_mem c m))
    simp [splitSlash, hc, ih]

/-- Splitting peels off a leading slash-free component. -/
lemma splitSlash_append : ∀ (a rest : List Char), '/' ∉ a →
    splitSlash (a ++ '/' :: rest) = a :: splitSlash rest
  | [], rest, _ => by simp [splitSlash]
  | c :: a', rest, h => by
    have hc : ¬(c = '/') := fun e => h (e ▸ List.mem_cons_self c a')
    have ih := splitSlash_append a' rest (fun m => h (List.mem_cons_of_mem c m))
    simp [splitSlash, hc, ih]

/-- Splitting on `/` inverts joining with `/` for components that
contain no slash. -/
lemma splitSlash_join : ∀ (parts : List (List Char)), parts ≠ [] →
    (∀ p ∈ parts, '/' ∉ p) → splitSlash (joinChar '/' parts) = parts
  | [], hne, _ => absurd rfl hne
  | [p], _, h => by
    simp only [joinChar]
    exact splitSlash_no_slash p (h p (List.mem_singleton_self p))
  | p :: q :: ps, _, h => by
    have hp : '/' ∉ p := h p (by simp)
    have ih := splitSlash_join (q :: ps) (by simp) (fun r hr => h r (by simp [hr]))
    simp only [joinChar]
    rw [splitSlash_append p _ hp, ih]

/-- `all_records` of a crawl whose pages have no containers is empty. -/
lemma all_records_nil (pages : List Page) (he : ∀ p ∈ pages, p.quoteDivs = []) :
    all_records pages = [] := by
  induction pages with
  | nil => rfl
  | cons p ps ih =>
    simp [all_records, he p (by simp), ih (fun q hq => he q (by simp [hq]))]

/-! ### The claims -/

/-- C3: for every completed crawl over a chain of pages, the final
result collection holds exactly one record per quote container, ordered
first by page-visit order and, within a page, by document order of the
containers (`all_records` is that nested-order concatenation); records
are only appended, never removed, reordered or deduplicated. -/
theorem result_order_matches_visit_order (isDump : Bool) (pages : List Page) (fs : FS)
    (hc : chain_ok pages = true) (hw : ∀ p ∈ pages, wf_page p = true) :
    (scrape isDump pages fs).1 = .ok (all_records pages) := by
  rw [scrape_ok isDump pages fs hc hw]

/-- Witness for C3: a concrete two-page crawl returns exactly the
concatenated records. -/
theorem result_order_matches_visit_order_witness :
    chain_ok [first_page, end_page] = true
    ∧ (∀ p ∈ [first_page, end_page], wf_page p = true)
    ∧ (scrape false [first_page, end_page] []).1 = .ok (all_records [first_page, end_page]) :=
  ⟨by decide, by decide,
   result_order_matches_visit_order false [first_page, end_page] [] (by decide) (by decide)⟩

/-- C4: a quote container whose `span` (quote text) or `small` (author)
sub-element is missing makes per-quote extraction raise an error, and
that error aborts the whole page-extraction loop wherever the container
sits — it is never silently skipped. -/
theorem malformed_container_aborts (d : QuoteDiv) (h : d.span = none ∨ d.small = none) :
    (∃ e, parse_quote_div d = .error e)
    ∧ ∀ (divs1 divs2 : List QuoteDiv) (acc : List Dict),
        ∃ e, parse_divs (divs1 ++ d :: divs2) acc = .error e := by
  have h1 : ∃ e, parse_quote_div d = .error e := by
    rcases h with h | h
    · exact ⟨.attributeError "span", by simp [parse_quote_div, h]⟩
    · cases hs : d.span with
      | none => exact ⟨.attributeError "span", by simp [parse_quote_div, hs]⟩
      | some q => exact ⟨.attributeError "small", by simp [parse_quote_div, hs, h]⟩
  refine ⟨h1, ?_⟩
  intro divs1
  induction divs1 with
  | nil =>
    intro divs2 acc
    obtain ⟨e, he⟩ := h1
    exact ⟨e, by simp [parse_divs, he]⟩
  | cons d' rest ih =>
    intro divs2 acc
    cases hd' : parse_quote_div d' with
    | ok det =>
      obtain ⟨e, he⟩ := ih divs2 (acc ++ [det])
      exact ⟨e, by simp [parse_divs, hd', he]⟩
    | error e' =>
      exact ⟨e', by simp [parse_divs, hd']⟩

/-- Witness for C4: the container with the missing `span` makes both
the single extraction and a surrounding loop fail. -/
theorem malformed_container_aborts_witness :
    (bad_div.span = none ∨ bad_div.small = none)
    ∧ (∃ e, parse_quote_div bad_div = .error e)
    ∧ ∃ e, parse_divs ([sample_div] ++ bad_div :: [sample_div]) [] = .error e :=
  ⟨Or.inl rfl, (malformed_container_aborts bad_div (Or.inl rfl)).1,
   (malformed_container_aborts bad_div (Or.inl rfl)).2 [sample_div] [sample_div] []⟩

/-- C5: on a finite chain whose pages all parse, where every page but
the last carries the literal "Next →" link and the last does not, the
crawl visits exactly the chain's length in pages and then terminates
normally (with an `ok` result, not an error). -/
theorem crawl_visits_whole_chain_and_terminates (isDump : Bool) (pages : List Page) (fs : FS)
    (hc : chain_ok pages = true) (hw : ∀ p ∈ pages, wf_page p = true) :
    (scrape isDump pages fs).2.2 = pages.length
    ∧ ∃ r, (scrape isDump pages fs).1 = .ok r := by
  rw [scrape_ok isDump pages fs hc hw]
  exact ⟨rfl, all_records pages, rfl⟩

/-- Witness for C5: the concrete two-page chain is visited in exactly
two steps and ends normally. -/
theorem crawl_visits_whole_chain_and_terminates_witness :
    chain_ok [first_page, end_page] = true
    ∧ (∀ p ∈ [first_page, end_page], wf_page p = true)
    ∧ (scrape true [first_page, end_page] []).2.2 = 2
    ∧ ∃ r, (scrape true [first_page, end_page] []).1 = .ok r := by
  refine ⟨by decide, by decide, ?_⟩
  exact crawl_visits_whole_chain_and_terminates true [first_page, end_page] [] (by decide)
    (by decide)

/-- C6: extraction from a container holding a quote text, an author
text and an ordered tag list produces the dict with exactly those
values verbatim — no trimming or transformation — and with the tags in
document order. -/
theorem extraction_verbatim (q a : String) (tags : List String) :
    parse_quote_div { span := some q, small := some a, tagAnchors := tags } =
      .ok [("quote", .vstr q), ("author", .vstr a), ("tags", .vlist tags)] := rfl

/-- C7: a page with no quote containers at all extracts to the
unchanged accumulated result — nothing is appended and no error is
raised. -/
theorem no_containers_yields_empty_no_error (isDump : Bool) (url contents : String)
    (links : List String) (acc : List Dict) (fs : FS) :
    (parse_quotes_page isDump
        { url := url, contents := contents, quoteDivs := [], linkTexts := links } acc fs).1 =
      .ok acc := rfl

/-- C8: flushing serializes the result collection to the result file —
overwriting any existing contents at that path without warning — as an
ordered sequence of objects; every extracted dict carries its fields in
the order `quote, author, tags`; and the indented encoding preserves
every non-ASCII character literally (only `"`, backslash and control
characters are escaped). -/
theorem flush_serialization_properties (result : List Dict) (fs : FS) (old : String) :
    fsRead (flush (fsWrite fs res_file old) result) res_file = some (dumpResult result)
    ∧ (∀ d r, parse_quote_div d = .ok r → r.map Prod.fst = ["quote", "author", "tags"])
    ∧ ∀ c : Char, 0x80 ≤ c.toNat → pyEscapeChar c = [c] := by
  refine ⟨fsRead_write_self _ _ _, ?_, ?_⟩
  · intro d r hr
    cases hs : d.span with
    | none => simp [parse_quote_div, hs] at hr
    | some q =>
      cases ht : d.small with
      | none => simp [parse_quote_div, hs, ht] at hr
      | some a =>
        simp only [parse_quote_div, hs, ht, Except.ok.injEq] at hr
        rw [← hr]
        rfl
  · intro c hc
    have h1 : ¬(c = '"') := fun h => by subst h; exact absurd hc (by decide)
    have h2 : ¬(c = '\\') := fun h => by subst h; exact absurd hc (by decide)
    have h3 : ¬(c = '\n') := fun h => by subst h; exact absurd hc (by decide)
    have h4 : ¬(c = '\r') := fun h => by subst h; exact absurd hc (by decide)
    have h5 : ¬(c = '\t') := fun h => by subst h; exact absurd hc (by decide)
    have h6 : ¬(c = '\x08') := fun h => by subst h; exact absurd hc (by decide)
    have h7 : ¬(c = '\x0c') := fun h => by subst h; exact absurd hc (by decide)
    have h8 : ¬(c.toNat < 0x20) := by omega
    simp [pyEscapeChar, h1, h2, h3, h4, h5, h6, h7, h8]

/-- Witness for C8: concrete flush over stale contents, concrete field
order, and a concrete non-ASCII character kept literally. -/
theorem flush_serialization_properties_witness :
    fsRead (flush (fsWrite [] res_file "stale") [extract_record sample_div]) res_file
        = some (dumpResult [extract_record sample_div])
    ∧ (extract_record sample_div).map Prod.fst = ["quote", "author", "tags"]
    ∧ pyEscapeChar 'é' = ['é'] :=
  ⟨(flush_serialization_properties [extract_record sample_div] [] "stale").1,
   (flush_serialization_properties [extract_record sample_div] [] "stale").2.1 sample_div
     (extract_record sample_div) rfl,
   (flush_serialization_properties [extract_record sample_div] [] "stale").2.2 'é' (by decide)⟩

/-- C9: every run either completes and writes the result file exactly
once, at the end, with the full serialized collection, or aborts on an
error having written the result file zero times — its contents stay
whatever they were before the run (stale or absent); partial results
are never written. -/
theorem result_file_all_or_nothing (isDump : Bool) (pages : List Page) (fs : FS) :
    (∀ r, (scrape isDump pages fs).1 = .ok r →
        countPath (scrape isDump pages fs).2.1 res_file = countPath fs res_file + 1
        ∧ fsRead (scrape isDump pages fs).2.1 res_file = some (dumpResult r))
    ∧ ∀ e, (scrape isDump pages fs).1 = .error e →
        countPath (scrape isDump pages fs).2.1 res_file = countPath fs res_file
        ∧ fsRead (scrape isDump pages fs).2.1 res_file = fsRead fs res_file := by
  have hfs := scrape_loop_fs isDump pages [] fs 0
  cases h : (scrape_loop isDump pages [] fs 0).1 with
  | ok r0 =>
    have hs : scrape isDump pages fs =
        (.ok r0, fsWrite (scrape_loop isDump pages [] fs 0).2.1 res_file (dumpResult r0),
          (scrape_loop isDump pages [] fs 0).2.2) := by
      rw [scrape, h]
      rfl
    constructor
    · intro r hr
      rw [hs] at hr
      simp only [Except.ok.injEq] at hr
      subst hr
      rw [hs]
      exact ⟨by rw [countPath_write_self, hfs.2], fsRead_write_self _ _ _⟩
    · intro e he
      rw [hs] at he
      simp at he
  | error e0 =>
    have hs : scrape isDump pages fs =
        (.error e0, (scrape_loop isDump pages [] fs 0).2.1,
          (scrape_loop isDump pages [] fs 0).2.2) := by
      rw [scrape, h]
    constructor
    · intro r hr
      rw [hs] at hr
      simp at hr
    · intro e he
      rw [hs]
      exact ⟨hfs.2, hfs.1⟩

/-- Witness for C9: a completing run writes the result file once with
the full collection; an aborting run leaves it untouched. -/
theorem result_file_all_or_nothing_witness :
    (countPath (scrape true [end_page] []).2.1 res_file = countPath ([] : FS) res_file + 1
      ∧ fsRead (scrape true [end_page] []).2.1 res_file
          = some (dumpResult [extract_record sample_div]))
    ∧ countPath (scrape true [bad_page] []).2.1 res_file = countPath ([] : FS) res_file
    ∧ fsRead (scrape true [bad_page] []).2.1 res_file = fsRead ([] : FS) res_file :=
  ⟨(result_file_all_or_nothing true [end_page] []).1 [extract_record sample_div] rfl,
   (result_file_all_or_nothing true [bad_page] []).2 (.attributeError "span") rfl⟩

/-- C10: a crawl that completes with every visited page holding zero
quote containers still writes the result file, and its contents are
exactly the serialized empty array `[]`. -/
theorem empty_crawl_writes_empty_array (isDump : Bool) (pages : List Page) (fs : FS)
    (hc : chain_ok pages = true) (he : ∀ p ∈ pages, p.quoteDivs = []) :
    (scrape isDump pages fs).1 = .ok []
    ∧ fsRead (scrape isDump pages fs).2.1 res_file = some "[]" := by
  have hw : ∀ p ∈ pages, wf_page p = true := fun p hp => by
    rw [wf_page, he p hp]
    rfl
  rw [scrape_ok isDump pages fs hc hw, all_records_nil pages he]
  exact ⟨rfl, fsRead_write_self _ _ _⟩

/-- Witness for C10: a one-page crawl with no containers writes `[]`. -/
theorem empty_crawl_writes_empty_array_witness :
    chain_ok [empty_page] = true
    ∧ (∀ p ∈ [empty_page], p.quoteDivs = [])
    ∧ (scrape true [empty_page] []).1 = .ok []
    ∧ fsRead (scrape true [empty_page] []).2.1 res_file = some "[]" := by
  refine ⟨by decide, by decide, ?_⟩
  exact empty_crawl_writes_empty_array true [empty_page] [] (by decide) (by decide)

/-- C1 (counterexample): a run that starts the session and then aborts
with an extraction error invokes `quit` zero times, not exactly once —
the `__main__` block has no `try`/`finally`, so the exception raised
inside `scrape` propagates past the `quit()` call. -/
theorem quit_skipped_on_aborted_run :
    (scrape true [bad_page] ([] : FS)).1 = .error (.attributeError "span")
    ∧ main_quit_count [bad_page] [] = 0
    ∧ (main_quit_count [bad_page] [] = 1) = False :=
  ⟨rfl, rfl, eq_false (by decide)⟩

/-- C1 (amended): on a run whose `scrape` completes normally, `quit` is
invoked exactly once; on a run whose `scrape` aborts with an error
after the session was started, `quit` is never invoked (the session
leaks). -/
theorem quit_once_on_success_never_on_error (pages : List Page) (fs : FS) :
    (∀ r, (scrape true pages fs).1 = .ok r → main_quit_count pages fs = 1)
    ∧ ∀ e, (scrape true pages fs).1 = .error e → main_quit_count pages fs = 0 := by
  constructor
  · intro r hr
    rw [main_quit_count, hr]
  · intro e he
    rw [main_quit_count, he]

/-- Witness for the amended C1: one quit on a completing run, none on
an aborting run. -/
theorem quit_once_on_success_never_on_error_witness :
    main_quit_count [end_page] [] = 1 ∧ main_quit_count [bad_page] [] = 0 :=
  ⟨(quit_once_on_success_never_on_error [end_page] []).1 [extract_record sample_div] rfl,
   (quit_once_on_success_never_on_error [bad_page] []).2 (.attributeError "span") rfl⟩

/-- C2 (counterexample): for the URL `http://example.com/js/page/3/`
the dump filename the code produces is `3_.html`, not `page_3.html`:
the trailing slash makes the last `/`-separated component of the URL
string empty, so `"_".join(url.split("/")[-2:])` joins `"3"` with the
empty component. -/
theorem dump_name_of_example_url :
    dump_file_name "http://example.com/js/page/3/" = "3_.html"
    ∧ (dump_file_name "http://example.com/js/page/3/" = "page_3.html") = False :=
  ⟨by decide, eq_false (by decide)⟩

/-- C2 (amended): the dump name is derived from the last two
`/`-separated components of the URL *string* joined by an underscore —
where a URL ending in `/` contributes an empty final component: for a
URL assembled from slash-free components, `page_name` returns exactly
the last two components joined by `_`. -/
theorem dump_name_last_two_url_components (parts : List (List Char)) (hne : parts ≠ [])
    (h : ∀ p ∈ parts, ('/' : Char) ∉ p) :
    page_name ⟨joinChar '/' parts⟩ = ⟨joinChar '_' (parts.drop (parts.length - 2))⟩ := by
  have hd : (String.mk (joinChar '/' parts)).data = joinChar '/' parts := rfl
  unfold page_name
  rw [hd, splitSlash_join parts hne h]

/-- The components of the example URL `http://example.com/js/page/3/`:
the trailing slash yields an empty last component. -/
def example_url_parts : List (List Char) :=
  ["http:".data, [], "example.com".data, "js".data, "page".data, "3".data, []]

/-- Witness for the amended C2: on the example URL's components the
name is the join of `"3"` and the empty component, i.e. `3_`. -/
theorem dump_name_last_two_url_components_witness :
    example_url_parts ≠ []
    ∧ (∀ p ∈ example_url_parts, ('/' : Char) ∉ p)
    ∧ page_name ⟨joinChar '/' example_url_parts⟩ =
        ⟨joinChar '_' (example_url_parts.drop (example_url_parts.length - 2))⟩ :=
  ⟨by decide, by decide,
   dump_name_last_two_url_components example_url_parts (by decide) (by decide)⟩
